import Mathlib

/-!
Verification development for the avito.ma listing scraper
(`scraper_avito.py`).  The Python source is shallowly embedded: each
field parser (price, stats, location, relative time), the geography
tables, the geocoder and the per-page record assembly loop are
translated into executable Lean definitions, and the specification's
claims are settled as theorems about those definitions.

Conventions of the embedding:
* Python strings are `String` / `List Char`; a Python `None` argument is
  `Option.none`, so functions that accept a possibly-`None` string take
  `Option String`.
* Python regex character classes `\d` and `\s` are modelled by
  `pyDigit` and `pySpace` (ASCII digits; the Unicode whitespace code
  points that occur in the scraper's input domain).
* The source's regexes are deterministic on the disjoint classes they
  use, so each is translated to a direct recursive matcher whose
  backtracking behaviour (greedy / lazy / optional groups) has been
  traced by hand from the Python `re` semantics; comments at each
  definition record the regex being embedded.
* Python floats produced by `price / surface` and `random.uniform` are
  modelled as rationals (`ℚ`); `round` is the banker's rounding
  (`round half to even`) that Python's builtin `round` performs,
  embodied in `pyRound`.
* The randomness of `random.uniform(a, b)` is externalised: the model
  takes the underlying draw `t ∈ [0,1]` as an argument and computes
  `a + (b - a) * t`, which is exactly how `random.uniform` is defined.
-/

namespace CasaMap

/-! ## Character classes and basic string helpers -/

/-- Python regex `\d` restricted to the scraper's input domain:
ASCII decimal digits. -/
def pyDigit (c : Char) : Bool := c.isDigit

/-- Python regex `\s` / `str.strip` whitespace: ASCII whitespace plus the
Unicode whitespace code points (NBSP, narrow NBSP, thin space, etc.) that
appear in avito.ma pages. -/
def pySpace (c : Char) : Bool :=
  c = ' ' || c = '\t' || c = '\n' || c = '\r' ||
  c.toNat = 0x0b || c.toNat = 0x0c || c.toNat = 0x85 || c.toNat = 0xa0 ||
  c.toNat = 0x1680 || (0x2000 ≤ c.toNat && c.toNat ≤ 0x200a) ||
  c.toNat = 0x2028 || c.toNat = 0x2029 || c.toNat = 0x202f ||
  c.toNat = 0x205f || c.toNat = 0x3000

/-- Python `str.strip()` on a list of characters. -/
def pyStripList (l : List Char) : List Char :=
  ((l.dropWhile pySpace).reverse.dropWhile pySpace).reverse

/-- The `re.sub(r'[\xa0  ]', ' ', line)`: normalise non-breaking /
narrow / thin spaces (thousands separators) to ordinary spaces. -/
def normSpaces (l : List Char) : List Char :=
  l.map (fun c => if c.toNat = 0xa0 || c.toNat = 0x202f || c.toNat = 0x2009 then ' ' else c)

/-- The `int(...)` on a string of ASCII digits. -/
def digitsToNat (l : List Char) : Nat :=
  l.foldl (fun a c => 10 * a + (c.toNat - 48)) 0

/-- Python substring test `needle in hay`. -/
def hasSub (hay needle : List Char) : Bool :=
  match hay with
  | [] => needle.isEmpty
  | _ :: rest => needle.isPrefixOf hay || hasSub rest needle

/-- Lower-casing as Python's `str.lower` acts on the scraper's alphabet:
ASCII letters plus the accented letters appearing in the tables. -/
def pyToLower (c : Char) : Char :=
  if c = 'É' then 'é' else if c = 'È' then 'è' else if c = 'Ê' then 'ê'
  else if c = 'Ë' then 'ë' else if c = 'À' then 'à' else if c = 'Â' then 'â'
  else if c = 'Î' then 'î' else if c = 'Ï' then 'ï' else if c = 'Ô' then 'ô'
  else if c = 'Û' then 'û' else if c = 'Ù' then 'ù' else if c = 'Ü' then 'ü'
  else if c = 'Ç' then 'ç' else c.toLower

/-- Upper-casing on the same alphabet (used by `str.title`). -/
def pyToUpper (c : Char) : Char :=
  if c = 'é' then 'É' else if c = 'è' then 'È' else if c = 'ê' then 'Ê'
  else if c = 'ë' then 'Ë' else if c = 'à' then 'À' else if c = 'â' then 'Â'
  else if c = 'î' then 'Î' else if c = 'ï' then 'Ï' else if c = 'ô' then 'Ô'
  else if c = 'û' then 'Û' else if c = 'ù' then 'Ù' else if c = 'ü' then 'Ü'
  else if c = 'ç' then 'Ç' else c.toUpper

/-- Cased characters for `str.title`'s word boundaries. -/
def pyCased (c : Char) : Bool :=
  c.isAlpha ||
  c = 'é' || c = 'è' || c = 'ê' || c = 'ë' || c = 'à' || c = 'â' ||
  c = 'î' || c = 'ï' || c = 'ô' || c = 'û' || c = 'ù' || c = 'ü' || c = 'ç' ||
  c = 'É' || c = 'È' || c = 'Ê' || c = 'Ë' || c = 'À' || c = 'Â' ||
  c = 'Î' || c = 'Ï' || c = 'Ô' || c = 'Û' || c = 'Ù' || c = 'Ü' || c = 'Ç'

/-- Python `str.title`: upper-case a cased character whose predecessor is
not cased, lower-case the other cased characters. -/
def pyTitleAux : Bool → List Char → List Char
  | _, [] => []
  | prev, c :: rest =>
    if pyCased c then
      (if prev then pyToLower c else pyToUpper c) :: pyTitleAux true rest
    else c :: pyTitleAux false rest

def pyTitle (l : List Char) : List Char := pyTitleAux false l

/-! ## Price parser

`_PRICE_RE = re.compile(r'^([\d][\d\s]*?)\s*DH', re.I)` used with
`.match` (anchored at the start of the line).  The lazy group grows one
character at a time (digits and spaces only) and after each step the
engine tries `\s*DH`; since `\s` cannot match `D`/`d`, that trailing
part is the deterministic test `dhAfterSpaces`. -/

/-- The `\s*DH` (case-insensitive) matches at the head of `l`. -/
def dhAfterSpaces (l : List Char) : Bool :=
  match l.dropWhile pySpace with
  | c1 :: c2 :: _ => (c1 = 'D' || c1 = 'd') && (c2 = 'H' || c2 = 'h')
  | _ => false

/-- Lazy scan for `([\d][\d\s]*?)\s*DH` after the first digit: `acc`
holds the group read so far (reversed); stop as soon as `\s*DH` matches. -/
def priceScan : List Char → List Char → Option (List Char)
  | [], _ => none
  | c :: rest, acc =>
    if dhAfterSpaces (c :: rest) then some acc.reverse
    else if pyDigit c || pySpace c then priceScan rest (c :: acc)
    else none

/-- The `parse_price_line`: `if not line: return None`, normalise separator
spaces, strip, match `_PRICE_RE`, remove `\s` from the captured group and
convert to an integer.  (The Python `int(...)` cannot raise here: the
group is a non-empty digit/space string starting with a digit.) -/
def parse_price_line (line : Option String) : Option Nat :=
  match line with
  | none => none
  | some s =>
    if s = "" then none
    else
      match pyStripList (normSpaces s.data) with
      | [] => none
      | c :: rest =>
        if pyDigit c then
          (priceScan rest [c]).map
            (fun g => digitsToNat (g.filter (fun x => !pySpace x)))
        else none

/-! ## Stats-line parser

```
STATS_WITH_SURF = re.compile(r'^(\d+)\s+(\d+)\s+(\d+)\s*m[²2]\s*\d*\s*$', re.I)
STATS_NO_SURF   = re.compile(r'^(\d+)\s+(\d+)\s+\d+\s*$')
```
`\d` and `\s` are disjoint, so every `\d+`/`\s+` group is forced to be a
maximal run and the regexes are equivalent to maximal-munch scans. -/

/-- Matcher for `STATS_WITH_SURF`; returns `(rooms, surface)` =
(group 1, group 3). -/
def statsWithSurf (l : List Char) : Option (Nat × Nat) :=
  let g1 := l.takeWhile pyDigit
  let r1 := l.dropWhile pyDigit
  if g1.isEmpty then none else
  let s1 := r1.takeWhile pySpace
  let r2 := r1.dropWhile pySpace
  if s1.isEmpty then none else
  let g2 := r2.takeWhile pyDigit
  let r3 := r2.dropWhile pyDigit
  if g2.isEmpty then none else
  let s2 := r3.takeWhile pySpace
  let r4 := r3.dropWhile pySpace
  if s2.isEmpty then none else
  let g3 := r4.takeWhile pyDigit
  let r5 := r4.dropWhile pyDigit
  if g3.isEmpty then none else
  match r5.dropWhile pySpace with
  | m :: u :: r7 =>
    if (m = 'm' || m = 'M') && (u = '²' || u = '2') then
      if (((r7.dropWhile pySpace).dropWhile pyDigit).dropWhile pySpace).isEmpty then
        some (digitsToNat g1, digitsToNat g3)
      else none
    else none
  | _ => none

/-- Matcher for `STATS_NO_SURF`; returns rooms = group 1. -/
def statsNoSurf (l : List Char) : Option Nat :=
  let g1 := l.takeWhile pyDigit
  let r1 := l.dropWhile pyDigit
  if g1.isEmpty then none else
  let s1 := r1.takeWhile pySpace
  let r2 := r1.dropWhile pySpace
  if s1.isEmpty then none else
  let g2 := r2.takeWhile pyDigit
  let r3 := r2.dropWhile pyDigit
  if g2.isEmpty then none else
  let s2 := r3.takeWhile pySpace
  let r4 := r3.dropWhile pySpace
  if s2.isEmpty then none else
  let g3 := r4.takeWhile pyDigit
  let r5 := r4.dropWhile pyDigit
  if g3.isEmpty then none else
  if (r5.dropWhile pySpace).isEmpty then some (digitsToNat g1) else none

/-- The `parse_stats_line`: `(rooms, surface)`; tries the with-surface shape
first, then the no-surface shape, else `(None, None)`. -/
def parse_stats_line (line : Option String) : Option Nat × Option Nat :=
  match line with
  | none => (none, none)
  | some s =>
    if s = "" then (none, none)
    else
      let l := pyStripList s.data
      match statsWithSurf l with
      | some (r, sf) => (some r, some sf)
      | none =>
        match statsNoSurf l with
        | some r => (some r, none)
        | none => (none, none)

/-! ## Python `round` (banker's rounding) and the derived price/m² -/

/-- Python's builtin `round` on the rational model of a float: round half
to even. -/
def pyRound (q : ℚ) : ℤ :=
  let f := ⌊q⌋
  if q - f < 1/2 then f
  else if (1 : ℚ)/2 < q - f then f + 1
  else if f % 2 = 0 then f else f + 1

/-- The `price_m2 = round(price / surface) if price and surface and surface > 0
else None` — note the Python truthiness tests: `price` and `surface` must
be non-`None` *and* non-zero. -/
def price_m2_of (price surface : Option Nat) : Option ℤ :=
  match price, surface with
  | some p, some s =>
    if p ≠ 0 ∧ s ≠ 0 ∧ 0 < s then some (pyRound ((p : ℚ) / (s : ℚ))) else none
  | _, _ => none

end CasaMap

namespace CasaMap

/-! ## Relative-time parser

`_REL_RE = re.compile(r"il y a\s+(\d+)\s+(minute|heure|jour|semaine|mois)s?", re.I)`
used with `.search` (anywhere in the line).  Time is modelled as seconds
(`ℤ`); `timedelta` durations become second counts, with the source's
fixed 30-day month. -/

/-- Case-insensitive literal match: consume `pat` from the head of the
input (Python `re` `IGNORECASE` on the ASCII pattern letters). -/
def matchCI : List Char → List Char → Option (List Char)
  | [], l => some l
  | _ :: _, [] => none
  | p :: ps, c :: cs => if pyToLower c = pyToLower p then matchCI ps cs else none

/-- Regex `\s+`: at least one whitespace character, consumed greedily
(the tokens that follow it in every use are never whitespace, so the
greedy munch is exact). -/
def spaces1 : List Char → Option (List Char)
  | c :: rest => if pySpace c then some (rest.dropWhile pySpace) else none
  | [] => none

/-- Ordered alternation `(minute|heure|jour|semaine|mois)`; returns the
canonical lower-case unit (`m.group(2).lower()`). -/
def matchUnit (l : List Char) : Option String :=
  match matchCI "minute".data l with
  | some _ => some "minute"
  | none =>
    match matchCI "heure".data l with
    | some _ => some "heure"
    | none =>
      match matchCI "jour".data l with
      | some _ => some "jour"
      | none =>
        match matchCI "semaine".data l with
        | some _ => some "semaine"
        | none =>
          match matchCI "mois".data l with
          | some _ => some "mois"
          | none => none

/-- The `_REL_RE` matched at the head of `l`: `il y a`, spaces, digits,
spaces, unit (the trailing optional `s?` consumes nothing we care about). -/
def relAt (l : List Char) : Option (Nat × String) :=
  match matchCI "il y a".data l with
  | none => none
  | some r1 =>
    match spaces1 r1 with
    | none => none
    | some r2 =>
      let ds := r2.takeWhile pyDigit
      if ds.isEmpty then none
      else
        match spaces1 (r2.dropWhile pyDigit) with
        | none => none
        | some r3 => (matchUnit r3).map (fun u => (digitsToNat ds, u))

/-- The `re.search`: leftmost position where `_REL_RE` matches. -/
def relSearch : List Char → Option (Nat × String)
  | [] => none
  | c :: rest =>
    match relAt (c :: rest) with
    | some x => some x
    | none => relSearch rest

/-- The `deltas` dictionary of `parse_relative_date`, in seconds; a unit
outside the dictionary yields `timedelta(0)`. -/
def relDelta (u : String) (n : Nat) : ℤ :=
  if u = "minute" then 60 * n
  else if u = "heure" then 3600 * n
  else if u = "jour" then 86400 * n
  else if u = "semaine" then 604800 * n
  else if u = "mois" then 2592000 * n
  else 0

/-- The `parse_relative_date`: `now` is the instant at parse time (seconds);
`text or ""` handles a `None` argument; no match returns `now`. -/
def parse_relative_date (now : ℤ) (text : Option String) : ℤ :=
  match relSearch (text.getD "").data with
  | none => now
  | some (n, u) => now - relDelta u n

/-- The `re.search(r'il y a\s+\d+', l, re.I)` matched at the head of `l`
(used to pick the timestamp line of a block). -/
def relMarkAt (l : List Char) : Bool :=
  match matchCI "il y a".data l with
  | none => false
  | some r =>
    match spaces1 r with
    | none => false
    | some r2 =>
      match r2 with
      | c :: _ => pyDigit c
      | [] => false

/-- The same search anywhere in the line. -/
def hasRelMark : List Char → Bool
  | [] => false
  | c :: rest => relMarkAt (c :: rest) || hasRelMark rest

/-! ## Location parser

```
_LOC_RE = re.compile(
  r"^(?:Appartements|Villas?\s+et\s+Riads?)\s+dans\s+([^,]+)(?:,\s*(.+))?$", re.I)
```
The alternation is deterministic (no line starts with both labels), the
optional `s?` letters are deterministic because a whitespace token
follows, and the one genuine backtracking interaction — between
`\s+` and `([^,]+)` when the first non-space character after `dans` is a
comma or the line ends in spaces — is reproduced explicitly in
`locTail` (the group then captures the last space of the run).
The inputs come from splitting on newlines, so `.` (any char but a
newline) is modelled as any character. -/

/-- Optional `s?` after `Villa`/`Riad`: consume a single `s`/`S` if
present (the regex continues with a whitespace token, so consuming it is
never wrong). -/
def optS : List Char → List Char
  | 's' :: t => t
  | 'S' :: t => t
  | l => l

/-- The `(?:Appartements|Villas?\s+et\s+Riads?)`: consume the label. -/
def matchLabel (l : List Char) : Option (List Char) :=
  match matchCI "appartements".data l with
  | some r => some r
  | none =>
    match matchCI "villa".data l with
    | none => none
    | some r1 =>
      match spaces1 (optS r1) with
      | none => none
      | some r2 =>
        match matchCI "et".data r2 with
        | none => none
        | some r3 =>
          match spaces1 r3 with
          | none => none
          | some r4 =>
            match matchCI "riad".data r4 with
            | none => none
            | some r5 => some (optS r5)

/-- The `(?:,\s*(.+))?$` after group 1; `r` is what follows group 1, which
by construction is empty or starts with a comma.  When everything after
the comma is whitespace, `\s*` backs off one character and `(.+)`
captures that final whitespace character; a comma with nothing at all
after it makes the whole regex fail. -/
def locFinish (g1 r : List Char) : Option (List Char × Option (List Char)) :=
  match r with
  | [] => some (g1, none)
  | _ :: t =>
    match t.dropWhile pySpace with
    | c :: rest => some (g1, some (c :: rest))
    | [] =>
      match t.getLast? with
      | some cl => some (g1, some [cl])
      | none => none

/-- After `dans` and one whitespace character `c0`: handle
`\s+([^,]+)…` including the backtracking edge where `([^,]+)` must
capture the final space of the whitespace run. -/
def locTail (c0 : Char) (v1 : List Char) : Option (List Char × Option (List Char)) :=
  match v1.dropWhile pySpace with
  | ch :: wrest =>
    if ch = ',' then
      match v1 with
      | c1 :: _ =>
        if pySpace c1 then
          locFinish [(v1.takeWhile pySpace).getLastD c0] (ch :: wrest)
        else none
      | [] => none
    else
      locFinish ((ch :: wrest).takeWhile (fun x => x ≠ ','))
        ((ch :: wrest).dropWhile (fun x => x ≠ ','))
  | [] =>
    match v1 with
    | c1 :: _ =>
      if pySpace c1 then locFinish [(v1.takeWhile pySpace).getLastD c0] []
      else none
    | [] => none

/-- The `_LOC_RE.match`: the two capture groups (city phrase, neighbourhood
phrase) when the full regex matches. -/
def locGroups (l : List Char) : Option (List Char × Option (List Char)) :=
  match matchLabel l with
  | none => none
  | some u =>
    match spaces1 u with
    | none => none
    | some u1 =>
      match matchCI "dans".data u1 with
      | none => none
      | some v =>
        match v with
        | c0 :: v1 => if pySpace c0 then locTail c0 v1 else none
        | [] => none

/-- The `CITY_TEXT_MAP`, in the source's (insertion) order. -/
def CITY_TEXT_MAP : List (String × String) :=
  [("casablanca", "Casablanca"), ("agadir", "Agadir"),
   ("marrakech", "Marrakech"), ("tanger", "Tanger"),
   ("rabat", "Rabat"), ("mohammedia", "Mohammedia"),
   ("salé", "Rabat"), ("sale", "Rabat")]

/-- The loop body of `city_from_location` once group 1 is in hand:
`raw = m.group(1).strip().lower()`, first `CITY_TEXT_MAP` key contained
in `raw` wins, else `m.group(1).strip().title()`. -/
def cityResolve (g1 : List Char) : String :=
  let raw := (pyStripList g1).map pyToLower
  match CITY_TEXT_MAP.find? (fun kv => hasSub raw kv.1.data) with
  | some kv => kv.2
  | none => ⟨pyTitle (pyStripList g1)⟩

/-- The `city_from_location` (`loc or ""` handles a `None` line). -/
def city_from_location (loc : Option String) : Option String :=
  match locGroups (loc.getD "").data with
  | none => none
  | some (g1, _) => some (cityResolve g1)

/-- The `quartier_from_location`: group 2, stripped and title-cased; absent
(or falsy) group 2 gives `None`.  (A present group 2 is never the empty
string, so the Python falsiness test is exactly presence.) -/
def quartier_from_location (loc : Option String) : Option String :=
  match locGroups (loc.getD "").data with
  | some (_, some g2) => some ⟨pyTitle (pyStripList g2)⟩
  | _ => none

/-- The block segmenter's line filter
`re.match(r"^(?:Appartements|Villas?\s+et\s+Riads?)\s+dans\s+", l, re.I)`. -/
def isLocLine (s : String) : Bool :=
  match matchLabel s.data with
  | none => false
  | some u =>
    match spaces1 u with
    | none => false
    | some u1 =>
      match matchCI "dans".data u1 with
      | none => false
      | some v =>
        match spaces1 v with
        | some _ => true
        | none => false

end CasaMap

namespace CasaMap

/-! ## Geography tables and the geocoder

The bounding boxes are `(lat_min, lat_max, lng_min, lng_max)` tuples of
(model-)floats; the Python dictionaries become association lists in the
source's insertion order, and `dict.get` becomes `find?` on the exact
key. -/

/-- A bounding box `(lat_min, lat_max, lng_min, lng_max)`. -/
abbrev Box := ℚ × ℚ × ℚ × ℚ

def QUARTIER_BOUNDS : List (String × Box) := [
  ("Ain Diab", (33.582, 33.596, -7.705, -7.665)),
  ("Anfa", (33.583, 33.598, -7.668, -7.640)),
  ("Casa Anfa", (33.568, 33.580, -7.665, -7.643)),
  ("Racine", (33.583, 33.597, -7.651, -7.628)),
  ("Gauthier", (33.582, 33.595, -7.636, -7.611)),
  ("Maarif", (33.572, 33.593, -7.648, -7.622)),
  ("Californie", (33.562, 33.581, -7.650, -7.622)),
  ("Triangle D\x27Or", (33.585, 33.598, -7.638, -7.618)),
  ("Centre Ville", (33.585, 33.603, -7.626, -7.598)),
  ("Bourgogne", (33.573, 33.591, -7.626, -7.600)),
  ("Val Fleuri", (33.570, 33.589, -7.640, -7.612)),
  ("Palmier", (33.564, 33.582, -7.618, -7.590)),
  ("Belvedere", (33.578, 33.596, -7.617, -7.589)),
  ("Belvédère", (33.578, 33.596, -7.617, -7.589)),
  ("Derb Sultan", (33.574, 33.593, -7.612, -7.583)),
  ("Cil", (33.557, 33.575, -7.618, -7.589)),
  ("Sidi Belyout", (33.591, 33.606, -7.628, -7.603)),
  ("Hay Mohammadi", (33.585, 33.603, -7.602, -7.572)),
  ("Roches Noires", (33.587, 33.607, -7.587, -7.556)),
  ("Ain Sebaa", (33.603, 33.625, -7.590, -7.548)),
  ("Sidi Bernoussi", (33.594, 33.612, -7.577, -7.545)),
  ("Oasis", (33.548, 33.572, -7.650, -7.618)),
  ("Hay Hassani", (33.536, 33.563, -7.682, -7.644)),
  ("Ain Chock", (33.556, 33.573, -7.636, -7.606)),
  ("Oulfa", (33.527, 33.553, -7.670, -7.633)),
  ("Sidi Maarouf", (33.521, 33.551, -7.648, -7.613)),
  ("Hay Riad", (33.548, 33.565, -7.642, -7.614)),
  ("Moulay Rachid", (33.548, 33.566, -7.612, -7.582)),
  ("Ben M\x27Sick", (33.561, 33.577, -7.616, -7.590)),
  ("Sbata", (33.570, 33.585, -7.607, -7.582)),
  ("Derb Ghallef", (33.573, 33.590, -7.619, -7.598)),
  ("Mers Sultan", (33.581, 33.598, -7.619, -7.601)),
  ("Hay Chrifa", (33.540, 33.558, -7.647, -7.623)),
  ("Ferme Bretone", (33.562, 33.578, -7.634, -7.610)),
  ("Franceville", (33.575, 33.592, -7.641, -7.618)),
  ("Les Princesses", (33.581, 33.596, -7.635, -7.614)),
  ("Nassim", (33.530, 33.548, -7.643, -7.618)),
  ("Maârif Extension", (33.564, 33.582, -7.655, -7.628)),
  ("Casablanca Finance City", (33.535, 33.552, -7.655, -7.630)),
  ("Quartier Des Hôpitaux", (33.581, 33.597, -7.623, -7.600)),
  ("Founty", (30.388, 30.406, -9.625, -9.595)),
  ("Talborjt", (30.414, 30.430, -9.600, -9.575)),
  ("Hay Almassira", (30.395, 30.415, -9.575, -9.545)),
  ("Centre Agadir", (30.418, 30.432, -9.592, -9.568)),
  ("Dakhla", (30.402, 30.418, -9.605, -9.580)),
  ("Anza", (30.440, 30.465, -9.610, -9.580)),
  ("Gueliz", (31.630, 31.648, -8.022, -7.992)),
  ("Guéliz", (31.630, 31.648, -8.022, -7.992)),
  ("Hivernage", (31.614, 31.632, -8.010, -7.985)),
  ("Medina", (31.618, 31.636, -7.998, -7.975)),
  ("Palmeraie", (31.638, 31.665, -7.960, -7.925)),
  ("Majorelle", (31.636, 31.650, -8.002, -7.978)),
  ("Targa", (31.596, 31.616, -8.020, -7.995)),
  ("Massira", (31.598, 31.618, -7.998, -7.970)),
  ("Azli", (31.610, 31.628, -8.005, -7.978)),
  ("Victor Hugo", (31.628, 31.645, -8.018, -7.993)),
  ("Es Saada", (31.595, 31.614, -8.002, -7.975)),
  ("Malabata", (35.778, 35.796, -5.778, -5.745)),
  ("Centre Tanger", (35.765, 35.782, -5.820, -5.790)),
  ("Marshan", (35.778, 35.795, -5.825, -5.798)),
  ("Iberia", (35.756, 35.775, -5.812, -5.785)),
  ("Iberie", (35.756, 35.775, -5.812, -5.785)),
  ("Zemmouri", (35.750, 35.768, -5.840, -5.810)),
  ("Agdal", (33.990, 34.010, -6.860, -6.830)),
  ("Hassan", (34.010, 34.030, -6.850, -6.820)),
  ("Souissi", (33.990, 34.015, -6.825, -6.795)),
  ("Les Orangers", (34.005, 34.025, -6.870, -6.840)),
  ("Yacoub El Mansour", (33.975, 33.998, -6.875, -6.845)),
  ("Centre Mohammedia", (33.688, 33.706, -7.402, -7.372)),
  ("Ain Harrouda", (33.660, 33.682, -7.428, -7.398)),
  ("La Siesta", (33.690, 33.708, -7.410, -7.380))]

def CITY_BOUNDS : List (String × Box) := [
  ("Casablanca", (33.520, 33.630, -7.710, -7.540)),
  ("Agadir", (30.380, 30.470, -9.640, -9.540)),
  ("Marrakech", (31.580, 31.680, -8.060, -7.920)),
  ("Tanger", (35.720, 35.810, -5.870, -5.740)),
  ("Rabat", (33.930, 34.060, -6.900, -6.790)),
  ("Mohammedia", (33.660, 33.720, -7.430, -7.360))]

/-- The `dict.get(key)` with a possibly-`None` key. -/
def dictGet (tbl : List (String × Box)) (k : Option String) : Option Box :=
  match k with
  | none => none
  | some s => (tbl.find? (fun kv => kv.1 = s)).map (fun kv => kv.2)

/-- The `QUARTIER_BOUNDS.get(quartier) or CITY_BOUNDS.get(city)` (a found
box is a non-empty tuple, hence truthy, so Python's `or` is exactly
`Option.orElse`). -/
def lookupBox (quartier city : Option String) : Option Box :=
  match dictGet QUARTIER_BOUNDS quartier with
  | some b => some b
  | none => dictGet CITY_BOUNDS city

/-- The `round(x, 6)`: banker's rounding to six decimal places. -/
def round6 (q : ℚ) : ℚ := (pyRound (q * 1000000) : ℚ) / 1000000

/-- The `random.uniform(a, b) = a + (b - a) * random()`; the underlying
draw `t ∈ [0, 1]` of `random.random()` is passed in explicitly. -/
def pyUniform (a b t : ℚ) : ℚ := a + (b - a) * t

/-- The `coords_for`: look the box up, then sample each coordinate uniformly
and round to 6 decimals.  `t1`, `t2` are the two `random()` draws. -/
def coords_for (quartier city : Option String) (t1 t2 : ℚ) :
    Option ℚ × Option ℚ :=
  match lookupBox quartier city with
  | none => (none, none)
  | some (a, b, c, d) => (some (round6 (pyUniform a b t1)), some (round6 (pyUniform c d t2)))

/-- A healthy bounding box: each coordinate has at most three decimal
places (so rounding to six decimals cannot escape the interval) and the
interval bounds are ordered. -/
def boxOK (b : Box) : Prop :=
  (b.1 * 1000).den = 1 ∧ (b.2.1 * 1000).den = 1 ∧ (b.2.2.1 * 1000).den = 1 ∧
  (b.2.2.2 * 1000).den = 1 ∧ b.1 ≤ b.2.1 ∧ b.2.2.1 ≤ b.2.2.2


end CasaMap

namespace CasaMap

/-! ## Block segmentation and record assembly (`scrape_page`)

The DOM walk that produces one text block per anchor is external input;
a block arrives as an `Anchor`: the anchor's `href` and the card's raw
lines (`card.get_text("\n", strip=True).split("\n")`, trimmed and
non-empty).  Everything from the `DH`-merge loop onward is embedded.
The thumbnail image and the two `datetime.now` wall-clock reads are
modelled by the single `now` parameter; `lat`/`lng` are produced by
`coords_for`, whose randomness is externalised, so the assembled
`Record` carries the deterministic fields. -/

structure Anchor where
  href : String
  raw : List String
deriving DecidableEq

structure Record where
  title : String
  type : String
  city : Option String
  quartier : Option String
  price : Option Nat
  surface : Option Nat
  rooms : Option Nat
  price_m2 : Option ℤ
  location : String
  link : String
  published_at : ℤ
  time_text : String
deriving DecidableEq

/-- The `re.match(r'^[\d][\d\s]*$', s)`: a digit followed by digits/spaces. -/
def isNumTok (s : String) : Bool :=
  match s.data with
  | c :: rest => pyDigit c && rest.all (fun x => pyDigit x || pySpace x)
  | [] => false

/-- The merge loop: a bare `"DH"` line following a numeric line is glued
onto it as `"… DH"`; `acc` holds the output so far, reversed. -/
def mergeDHAux : List String → List String → List String
  | acc, [] => acc.reverse
  | acc, l :: rest =>
    match acc with
    | lastL :: accr =>
      if l = "DH" && isNumTok lastL then mergeDHAux ((lastL ++ " DH") :: accr) rest
      else mergeDHAux (l :: lastL :: accr) rest
    | [] => mergeDHAux [l] rest

def mergeDH (raw : List String) : List String := mergeDHAux [] raw

/-- The `"DH" in l`. -/
def containsDH (l : String) : Bool := hasSub l.data "DH".data

/-- The `\s*m[²2]` matches at the head of `l` (tail of the title fallback
regex). -/
def surfUnitAt (l : List Char) : Bool :=
  match l.dropWhile pySpace with
  | m :: u :: _ => (m = 'm' || m = 'M') && (u = '²' || u = '2')
  | _ => false

/-- The `(\d{2,4})\s*m[²2]` matched at the head of `l`: the greedy counted
group tries 4, then 3, then 2 digits. -/
def surfTryAt (l : List Char) : Option Nat :=
  let ds := (l.takeWhile pyDigit).take 4
  if ds.length ≥ 4 && surfUnitAt (l.drop 4) then some (digitsToNat (ds.take 4))
  else if ds.length ≥ 3 && surfUnitAt (l.drop 3) then some (digitsToNat (ds.take 3))
  else if ds.length ≥ 2 && surfUnitAt (l.drop 2) then some (digitsToNat (ds.take 2))
  else none

/-- The `re.search` of the title-surface fallback regex. -/
def surfSearch : List Char → Option Nat
  | [] => none
  | c :: rest =>
    match surfTryAt (c :: rest) with
    | some v => some v
    | none => surfSearch rest

/-- Assemble the record for one block (the body of the anchor loop of
`scrape_page`, after dedup). -/
def buildRecord (now : ℤ) (ptype href : String) (raw : List String) : Record :=
  let lines := mergeDH raw
  let time_raw := (lines.find? (fun l => hasRelMark l.data)).getD ""
  let pub := parse_relative_date now (some time_raw)
  let loc_line := lines.find? isLocLine
  -- The Python guards `if loc_line and loc_line in lines` reduce to the
  -- matches below: a found location line is a non-empty string (the
  -- prefix regex needs at least one character) and a member of `lines`.
  let title : String :=
    match loc_line with
    | none => ""
    | some L =>
      let idx := lines.indexOf L
      if idx + 1 < lines.length then lines.getD (idx + 1) "" else ""
  let rs : Option Nat × Option Nat :=
    match loc_line with
    | none => (none, none)
    | some L =>
      let idx := lines.indexOf L
      match (lines.drop (idx + 1)).find?
          (fun l => ((parse_stats_line (some l)).1).isSome) with
      | some sl => ((parse_stats_line (some sl)).1, (parse_stats_line (some sl)).2)
      | none => (none, none)
  let surface :=
    match rs.2 with
    | some v => some v
    | none =>
      if title ≠ "" then
        match surfSearch title.data with
        | some v => if 20 ≤ v ∧ v ≤ 2000 then some v else none
        | none => none
      else none
  let price_line := (lines.find? containsDH).getD ""
  let price := parse_price_line (some price_line)
  { title := title
    type := ptype
    city := city_from_location loc_line
    quartier := quartier_from_location loc_line
    price := price
    surface := surface
    rooms := rs.1
    price_m2 := price_m2_of price surface
    location := loc_line.getD ""
    link := href
    published_at := pub
    time_text := time_raw }

/-- The anchor loop's link filter alone: drop `immoneuf` links and links
already seen on this page. -/
def keptAnchors : List Anchor → List String → List Anchor
  | [], _ => []
  | a :: rest, seen =>
    if hasSub a.href.data "immoneuf".data || seen.contains a.href then
      keptAnchors rest seen
    else a :: keptAnchors rest (a.href :: seen)

/-- The anchor loop of `scrape_page`: filter by link, build a record for
every surviving anchor, thread the `seen` set. -/
def scrapeGo (now : ℤ) (ptype : String) : List Anchor → List String → List Record
  | [], _ => []
  | a :: rest, seen =>
    if hasSub a.href.data "immoneuf".data || seen.contains a.href then
      scrapeGo now ptype rest seen
    else buildRecord now ptype a.href a.raw :: scrapeGo now ptype rest (a.href :: seen)

/-- The `scrape_page` from the anchor list down (fetching and HTML parsing
are external). -/
def scrape_page (now : ℤ) (ptype : String) (anchors : List Anchor) : List Record :=
  scrapeGo now ptype anchors []

end CasaMap

namespace CasaMap

/-! ## Spec-side comparison definitions

Two claims describe algorithms that differ from the code; these
definitions follow the specification's words so the divergence can be
exhibited explicitly.  They are *not* translations of the source. -/

/-- The price-regex matcher attempted at one position (first character a
digit, then the same lazy group and `\s*DH` test as the code). -/
def priceSearchList : List Char → Option Nat
  | [] => none
  | c :: rest =>
    if pyDigit c then
      match priceScan rest [c] with
      | some g => some (digitsToNat (g.filter (fun x => !pySpace x)))
      | none => priceSearchList rest
    else priceSearchList rest

/-- Spec-side price parser: "locate the FIRST digit-group-plus-marker
occurrence in the line" — i.e. a *search* anywhere in the line, rather
than the code's match anchored at the start. -/
def specPriceFirstAnywhere (s : String) : Option Nat :=
  priceSearchList (pyStripList (normSpaces s.data))

/-- Spec-side price-line selection for a block: "the first line
thereafter [after the location line] containing a currency marker" — the
scan starts after the location line, rather than the code's scan over
the whole block. -/
def specPriceAfterLoc (lines : List String) : Option Nat :=
  match lines.find? isLocLine with
  | none => none
  | some L =>
    ((lines.drop (lines.indexOf L + 1)).find? containsDH).bind
      (fun d => parse_price_line (some d))

end CasaMap




namespace CasaMap

/-! ## Helper lemmas -/

theorem mem_of_mem_dropWhile {α : Type} {p : α → Bool} {x : α} {l : List α}
    (h : x ∈ l.dropWhile p) : x ∈ l := by
  induction l with
  | nil => simp at h
  | cons c t ih =>
    rw [List.dropWhile_cons] at h
    by_cases hc : p c = true
    · simp only [hc, if_true] at h
      exact List.mem_cons_of_mem c (ih h)
    · simpa [hc] using h

theorem mem_pyStrip {x : Char} {l : List Char} (h : x ∈ pyStripList l) : x ∈ l := by
  unfold pyStripList at h
  exact mem_of_mem_dropWhile
    (List.mem_reverse.mp (mem_of_mem_dropWhile (List.mem_reverse.mp h)))

theorem mem_normSpaces {x : Char} {l : List Char} (h : x ∈ normSpaces l) :
    x = ' ' ∨ x ∈ l := by
  unfold normSpaces at h
  rcases List.mem_map.mp h with ⟨y, hy, he⟩
  by_cases hc : (y.toNat = 0xa0 || y.toNat = 0x202f || y.toNat = 0x2009) = true
  · left
    rw [← he]
    simp [hc]
  · right
    rw [← he]
    simp only [Bool.not_eq_true] at hc
    simp [hc]
    exact hy

theorem dhAfterSpaces_mem {l : List Char} (h : dhAfterSpaces l = true) :
    'D' ∈ l ∨ 'd' ∈ l := by
  simp only [dhAfterSpaces] at h
  split at h
  next c1 c2 rest heq =>
    have hc1 : c1 ∈ l := by
      apply mem_of_mem_dropWhile (p := pySpace)
      rw [heq]
      exact List.mem_cons_self _ _
    simp only [Bool.and_eq_true, Bool.or_eq_true, decide_eq_true_eq] at h
    rcases h.1 with h1 | h1
    · exact Or.inl (h1 ▸ hc1)
    · exact Or.inr (h1 ▸ hc1)
  next => simp at h

theorem priceScan_none :
    ∀ (l acc : List Char), 'D' ∉ l → 'd' ∉ l → priceScan l acc = none := by
  intro l
  induction l with
  | nil => intro acc _ _; rfl
  | cons c rest ih =>
    intro acc hD hd
    have hda : dhAfterSpaces (c :: rest) = false := by
      cases hh : dhAfterSpaces (c :: rest)
      · rfl
      · rcases dhAfterSpaces_mem hh with hm | hm
        · exact absurd hm hD
        · exact absurd hm hd
    have hD2 : 'D' ∉ rest := fun hm => hD (List.mem_cons_of_mem _ hm)
    have hd2 : 'd' ∉ rest := fun hm => hd (List.mem_cons_of_mem _ hm)
    simp only [priceScan, hda, Bool.false_eq_true, if_false]
    by_cases hc : (pyDigit c || pySpace c) = true
    · simp [hc, ih _ hD2 hd2]
    · simp [hc]

theorem statsWithSurf_marker {l : List Char} {rs : Nat × Nat}
    (h : statsWithSurf l = some rs) : 'm' ∈ l ∨ 'M' ∈ l := by
  simp only [statsWithSurf] at h
  split_ifs at h
  split at h
  next m u r7 heq =>
    split_ifs at h with hcond hrest
    have hmem : m ∈ l := by
      apply mem_of_mem_dropWhile (p := pyDigit)
      apply mem_of_mem_dropWhile (p := pySpace)
      apply mem_of_mem_dropWhile (p := pyDigit)
      apply mem_of_mem_dropWhile (p := pySpace)
      apply mem_of_mem_dropWhile (p := pyDigit)
      apply mem_of_mem_dropWhile (p := pySpace)
      rw [heq]
      exact List.mem_cons_self _ _
    simp only [Bool.and_eq_true, Bool.or_eq_true, decide_eq_true_eq] at hcond
    rcases hcond.1 with h1 | h1
    · exact Or.inl (h1 ▸ hmem)
    · exact Or.inr (h1 ▸ hmem)
  next => exact absurd h (by simp)

/-! ## Claim C10 -/

/-- Claim C10: the stats-line parser never produces a surface without a
room count: whenever the second component of `parse_stats_line` is
present, so is the first. -/
theorem stats_surface_implies_rooms (line : Option String)
    (h : ((parse_stats_line line).2).isSome) : ((parse_stats_line line).1).isSome := by
  cases line with
  | none => simp [parse_stats_line] at h
  | some s =>
    by_cases hs : s = ""
    · simp [parse_stats_line, hs] at h
    · simp only [parse_stats_line, if_neg hs] at h ⊢
      rcases hws : statsWithSurf (pyStripList s.data) with _ | ⟨r, sf⟩
      · rcases hns : statsNoSurf (pyStripList s.data) with _ | r
        · rw [hws, hns] at h
          simp at h
        · rw [hws, hns] at h
          simp at h
      · simp

/-- Witness for C10 at the spec's example line. -/
theorem stats_surface_implies_rooms_witness :
    ((parse_stats_line (some "3 2 187 m²4")).1).isSome :=
  stats_surface_implies_rooms (some "3 2 187 m²4") (by decide)

/-! ## Claim C6 -/

/-- Claim C6: the stats parser recognises shape (a)
`rooms secondary surface+unit[trailing]` and shape (b)
`rooms secondary trailing` (no surface), disambiguating by the presence
of the `m²`/`m2` unit marker and not by field count: the spec's two
examples evaluate as stated, a three-integer line without the marker
never yields a surface, and any line that does yield a surface contains
the unit letter. -/
theorem stats_two_shapes :
    parse_stats_line (some "3 2 187 m²4") = (some 3, some 187) ∧
    parse_stats_line (some "3 4 6") = (some 3, none) ∧
    parse_stats_line (some "2 1 63 m²0") = (some 2, some 63) ∧
    parse_stats_line (some "3 2 187 m2") = (some 3, some 187) ∧
    parse_stats_line (some "3 2 187") = (some 3, none) ∧
    (∀ s : String, ((parse_stats_line (some s)).2).isSome →
      'm' ∈ s.data ∨ 'M' ∈ s.data) := by
  refine ⟨by decide, by decide, by decide, by decide, by decide, ?_⟩
  intro s h
  by_cases hs : s = ""
  · simp [parse_stats_line, hs] at h
  · simp only [parse_stats_line, if_neg hs] at h
    rcases hws : statsWithSurf (pyStripList s.data) with _ | ⟨r, sf⟩
    · rcases hns : statsNoSurf (pyStripList s.data) with _ | r
      · rw [hws, hns] at h
        simp at h
      · rw [hws, hns] at h
        simp at h
    · rcases statsWithSurf_marker hws with hm | hm
      · exact Or.inl (mem_pyStrip hm)
      · exact Or.inr (mem_pyStrip hm)

/-- Witness for C6's final conjunct at the spec's example line. -/
theorem stats_two_shapes_witness :
    'm' ∈ "3 2 187 m²4".data ∨ 'M' ∈ "3 2 187 m²4".data :=
  stats_two_shapes.2.2.2.2.2 "3 2 187 m²4" (by decide)

end CasaMap

namespace CasaMap

/-! ## Claim C2 -/

/-- Claim C2 counterexample: the claim demands the FIRST
digit-group-plus-marker occurrence *anywhere* in the line, which for
`"Prix: 700 000 DH"` is `700000` (as the spec-side search shows), but
the code's regex is anchored with `.match` at the start of the line and
returns no value there. -/
theorem price_anywhere_cex :
    parse_price_line (some "Prix: 700 000 DH") = none ∧
    specPriceFirstAnywhere "Prix: 700 000 DH" = some 700000 := by
  exact ⟨by decide, by decide⟩

/-- Claim C2 (amended): the price parser returns the integer of the
first (lazy) digit-group-plus-`DH`-marker occurrence at the START of
the line — after normalising non-breaking-space separators and
stripping — with all separator characters removed from the captured
digits; a line whose stripped, normalised form is empty or does not
begin with a digit yields no value.  The spec's three examples and a
non-breaking-space variant evaluate as stated. -/
theorem price_parser_amended :
    parse_price_line (some "4 000 000 DH22 233 DH / mois") = some 4000000 ∧
    parse_price_line (some "700 000 DH") = some 700000 ∧
    parse_price_line (some "700 000 DH") = some 700000 ∧
    parse_price_line (some "Demander le prix") = none ∧
    (∀ (s : String) (c : Char) (rest : List Char),
      pyStripList (normSpaces s.data) = c :: rest → pyDigit c = false →
      parse_price_line (some s) = none) ∧
    (∀ s : String, pyStripList (normSpaces s.data) = [] →
      parse_price_line (some s) = none) := by
  refine ⟨by decide, by decide, by decide, by decide, ?_, ?_⟩
  · intro s c rest hl hc
    by_cases hs : s = ""
    · simp [parse_price_line, hs]
    · simp only [parse_price_line, if_neg hs]
      rw [hl]
      simp [hc]
  · intro s hl
    by_cases hs : s = ""
    · simp [parse_price_line, hs]
    · simp only [parse_price_line, if_neg hs]
      rw [hl]

/-- Witness for C2 (amended) at a line that does not start with a digit. -/
theorem price_parser_amended_witness :
    parse_price_line (some "x 700 000 DH") = none :=
  price_parser_amended.2.2.2.2.1 "x 700 000 DH" 'x' " 700 000 DH".data
    (by decide) (by decide)

/-! ## Claim C3 -/

/-- Claim C3 counterexample: the claim says the derived field is present
for *any* non-negative price including 0, but Python's truthiness test
`if price and surface and surface > 0` makes price 0 falsy, so the code
yields no value for price 0, surface 100 (the claim demands
`round(0/100) = 0` there). -/
theorem price_m2_zero_price_cex : price_m2_of (some 0) (some 100) = none := rfl

/-- Claim C3 (amended): the derived price-per-area field is present iff
the price is present AND NON-ZERO and the surface is present and
positive; in that case it equals the banker's rounding of
price / surface (4000000 / 187 ↦ 21390), and it is never defaulted to
zero when a component is missing. -/
theorem price_m2_rule :
    (∀ p s : Option Nat, (price_m2_of p s).isSome ↔
        ∃ pp ss, p = some pp ∧ s = some ss ∧ pp ≠ 0 ∧ 0 < ss) ∧
    (∀ pp ss : Nat, pp ≠ 0 → 0 < ss →
        price_m2_of (some pp) (some ss) = some (pyRound ((pp : ℚ) / (ss : ℚ)))) ∧
    price_m2_of (some 4000000) (some 187) = some 21390 ∧
    price_m2_of (some 4000000) none = none := by
  refine ⟨?_, ?_, ?_, rfl⟩
  · intro p s
    constructor
    · intro h
      match p, s with
      | some pp, some ss =>
        simp only [price_m2_of] at h
        split_ifs at h with hc
        · exact ⟨pp, ss, rfl, rfl, hc.1, hc.2.2⟩
        · simp at h
      | some pp, none => simp [price_m2_of] at h
      | none, _ => simp [price_m2_of] at h
    · rintro ⟨pp, ss, rfl, rfl, h1, h2⟩
      have h3 : ss ≠ 0 := Nat.pos_iff_ne_zero.mp h2
      simp only [price_m2_of]
      rw [if_pos ⟨h1, h3, h2⟩]
      rfl
  · intro pp ss h1 h2
    have h3 : ss ≠ 0 := Nat.pos_iff_ne_zero.mp h2
    simp only [price_m2_of]
    rw [if_pos ⟨h1, h3, h2⟩]
  · norm_num [price_m2_of, pyRound]

/-- Witness for C3 (amended) at price 1, surface 2. -/
theorem price_m2_rule_witness :
    price_m2_of (some 1) (some 2) = some (pyRound (((1 : ℕ) : ℚ) / ((2 : ℕ) : ℚ))) :=
  price_m2_rule.2.1 1 2 (by decide) (by decide)

/-! ## Claim C9 -/

/-- Claim C9: every field parser is total and never guesses: `None` or
empty input yields no value (price, stats, location) or the safe default
`now` (relative time); a price line without the `D`/`d` of the currency
marker yields no value; an unmatched relative-time line yields `now`. -/
theorem parsers_total :
    parse_price_line none = none ∧ parse_price_line (some "") = none ∧
    parse_stats_line none = (none, none) ∧ parse_stats_line (some "") = (none, none) ∧
    city_from_location none = none ∧ city_from_location (some "") = none ∧
    quartier_from_location none = none ∧ quartier_from_location (some "") = none ∧
    (∀ now : ℤ, parse_relative_date now none = now ∧
        parse_relative_date now (some "") = now) ∧
    (∀ s : String, 'D' ∉ s.data → 'd' ∉ s.data → parse_price_line (some s) = none) ∧
    (∀ (now : ℤ) (s : String), relSearch s.data = none →
        parse_relative_date now (some s) = now) := by
  refine ⟨rfl, rfl, rfl, rfl, rfl, rfl, rfl, rfl, fun now => ⟨rfl, rfl⟩, ?_, ?_⟩
  · intro s hD hd
    by_cases hs : s = ""
    · simp [parse_price_line, hs]
    · simp only [parse_price_line, if_neg hs]
      rcases hl : pyStripList (normSpaces s.data) with _ | ⟨c, rest⟩
      · rfl
      · by_cases hc : pyDigit c = true
        · simp only [hc, if_true]
          have hD2 : 'D' ∉ rest := by
            intro hm
            apply hD
            have h1 : 'D' ∈ pyStripList (normSpaces s.data) := by
              rw [hl]; exact List.mem_cons_of_mem _ hm
            rcases mem_normSpaces (mem_pyStrip h1) with he | he
            · exact absurd he (by decide)
            · exact he
          have hd2 : 'd' ∉ rest := by
            intro hm
            apply hd
            have h1 : 'd' ∈ pyStripList (normSpaces s.data) := by
              rw [hl]; exact List.mem_cons_of_mem _ hm
            rcases mem_normSpaces (mem_pyStrip h1) with he | he
            · exact absurd he (by decide)
            · exact he
          rw [priceScan_none rest [c] hD2 hd2]
          rfl
        · simp [hc]
  · intro now s h
    simp [parse_relative_date, h]

/-- Witness for C9 at a marker-free line. -/
theorem parsers_total_witness : parse_price_line (some "abc") = none :=
  parsers_total.2.2.2.2.2.2.2.2.2.1 "abc" (by decide) (by decide)

/-! ## Claim C5 -/

/-- Claim C5 counterexample: the claim says neighbourhood matching is
case-insensitive and folds variants, with "belvedere" hitting the same
entry as "Belvédère"; but the lookup is an exact `dict.get`, so
lower-case "belvedere" misses the quartier table entirely (while the
exact key "Belvedere" hits it). -/
theorem geo_lookup_case_cex :
    lookupBox (some "belvedere") none = none ∧
    (dictGet QUARTIER_BOUNDS (some "Belvedere")).isSome := by
  exact ⟨by decide, by decide⟩

/-- Claim C5 (amended): the lookup matches neighbourhood names by EXACT
string equality against the table keys; the diacritic variants the spec
mentions are handled only by duplicate key entries (`"Belvédère"` and
`"Belvedere"` map to the same box), not by general folding, and
lower-case variants miss.  Neighbourhood-before-city precedence holds:
a quartier hit wins, otherwise the city key decides, otherwise no box. -/
theorem geo_lookup_rule :
    (∀ (s : String) (c : Option String) (b : Box),
        dictGet QUARTIER_BOUNDS (some s) = some b → lookupBox (some s) c = some b) ∧
    (∀ q c : Option String, dictGet QUARTIER_BOUNDS q = none →
        lookupBox q c = dictGet CITY_BOUNDS c) ∧
    dictGet QUARTIER_BOUNDS (some "Belvédère") = dictGet QUARTIER_BOUNDS (some "Belvedere") ∧
    dictGet QUARTIER_BOUNDS (some "belvedere") = none ∧
    lookupBox none none = none := by
  refine ⟨?_, ?_, rfl, by decide, rfl⟩
  · intro s c b h
    simp [lookupBox, h]
  · intro q c h
    simp [lookupBox, h]

/-- Witness for C5 (amended): the Gauthier box wins over any city. -/
theorem geo_lookup_rule_witness :
    lookupBox (some "Gauthier") (some "Casablanca") = some (33.582, 33.595, -7.636, -7.611) :=
  geo_lookup_rule.1 "Gauthier" (some "Casablanca") (33.582, 33.595, -7.636, -7.611) rfl

end CasaMap

namespace CasaMap

/-! ## Claim C1 -/

/-- The record loop is the link-only filter followed by record building:
whether a block is kept never depends on its lines. -/
theorem scrapeGo_eq (now : ℤ) (pt : String) :
    ∀ (anchors : List Anchor) (seen : List String),
      scrapeGo now pt anchors seen =
        (keptAnchors anchors seen).map (fun a => buildRecord now pt a.href a.raw) := by
  intro anchors
  induction anchors with
  | nil => intro seen; rfl
  | cons a rest ih =>
    intro seen
    by_cases h : hasSub a.href.data "immoneuf".data = true ∨ a.href ∈ seen
    · simp [scrapeGo, keptAnchors, h, ih seen]
    · simp [scrapeGo, keptAnchors, h, ih (a.href :: seen)]

/-- Claim C1 counterexample: a block whose record has an empty title AND
no price is still added to the page's output — no validator discards it
(the claim says it is discarded). -/
theorem record_both_absent_kept_cex :
    (scrape_page 0 "appartement"
        [⟨"https://b", ["Appartements dans Casablanca, Gauthier"]⟩]).map Record.title
      = [""] ∧
    (scrape_page 0 "appartement"
        [⟨"https://b", ["Appartements dans Casablanca, Gauthier"]⟩]).map Record.price
      = [none] := ⟨by decide, by decide⟩

/-- Claim C1 (amended): `scrape_page` performs no title/price
validation at all: the kept records are exactly the link-filtered
anchors (no `immoneuf` substring, link not already seen), each mapped
through the record builder, whatever its fields; in particular a block
with an empty title but a valid price is kept — and so is one missing
both. -/
theorem records_kept_by_link_only :
    (∀ (now : ℤ) (pt : String) (anchors : List Anchor),
        scrape_page now pt anchors =
          (keptAnchors anchors []).map (fun a => buildRecord now pt a.href a.raw)) ∧
    (scrape_page 0 "appartement"
        [⟨"https://a", ["500 000 DH", "Appartements dans Casablanca, Gauthier"]⟩]).map
      Record.title = [""] ∧
    (scrape_page 0 "appartement"
        [⟨"https://a", ["500 000 DH", "Appartements dans Casablanca, Gauthier"]⟩]).map
      Record.price = [some 500000] := by
  refine ⟨?_, by decide, by decide⟩
  intro now pt anchors
  exact scrapeGo_eq now pt anchors []

/-! ## Claim C8 -/

theorem find?_append_first {α : Type} {p : α → Bool} {pre : List α} {x : α}
    (post : List α) (hpre : ∀ l ∈ pre, p l = false) (hx : p x = true) :
    (pre ++ x :: post).find? p = some x := by
  induction pre with
  | nil => simp [List.find?_cons_of_pos _ hx]
  | cons a t ih =>
    have ha : p a = false := hpre a (List.mem_cons_self _ _)
    simp only [List.cons_append]
    rw [List.find?_cons_of_neg _ (by simp [ha])]
    exact ih (fun l hl => hpre l (List.mem_cons_of_mem _ hl))

theorem indexOf_append_cons {pre : List String} {L : String} (post : List String)
    (h : L ∉ pre) : (pre ++ L :: post).indexOf L = pre.length := by
  induction pre with
  | nil => simp
  | cons a t ih =>
    have hne : a ≠ L := fun e => h (e ▸ List.mem_cons_self a t)
    simp only [List.cons_append, List.length_cons]
    rw [List.indexOf_cons_ne _ hne, ih (fun hm => h (List.mem_cons_of_mem _ hm))]

theorem drop_append_cons {α : Type} (pre : List α) (L : α) (post : List α) :
    (pre ++ L :: post).drop (pre.length + 1) = post := by
  have he : pre ++ L :: post = (pre ++ [L]) ++ post := by simp
  have hl : (pre ++ [L]).length = pre.length + 1 := by simp
  rw [he, ← hl, List.drop_left]

theorem getD_succ_append_cons (L : String) (post : List String) :
    ∀ pre : List String,
      (if pre.length + 1 < (pre ++ L :: post).length
         then (pre ++ L :: post).getD (pre.length + 1) ""
         else "") = post.headD "" := by
  intro pre
  induction pre with
  | nil =>
    cases post with
    | nil => simp
    | cons h t => simp [List.getD]
  | cons a t ih =>
    simpa [List.getD_cons_succ, Nat.succ_lt_succ_iff] using ih

/-- Claim C8 counterexample: the claim says the price is taken from the
first currency-marker line AFTER the location line; the code scans the
WHOLE block, so a `DH` line before the location line wins: the code
yields 500 where the claim's forward-scan rule (the spec-side
`specPriceAfterLoc`) yields 1000000. -/
theorem segmenter_price_scan_cex :
    (buildRecord 0 "appartement" "L"
        ["500 DH", "Appartements dans Casablanca, Gauthier", "Titre", "1 000 000 DH"]).price
      = some 500 ∧
    specPriceAfterLoc (mergeDH
        ["500 DH", "Appartements dans Casablanca, Gauthier", "Titre", "1 000 000 DH"])
      = some 1000000 := ⟨by decide, by decide⟩

/-- Claim C8 (amended): with the block's merged lines split as
`pre ++ L :: post` where `L` is the first location line: the title is
the line immediately after `L`; (rooms, surface) come from the first
line after `L` that parses as a stats line (surface as parsed, when
present); but the price comes from the first line OF THE WHOLE BLOCK
containing the currency marker — the code does not restrict the price
scan to the lines after the location line. -/
theorem segmenter_scan_rule (now : ℤ) (pt href : String) (raw : List String)
    (pre post : List String) (L : String)
    (hm : mergeDH raw = pre ++ L :: post)
    (hL : isLocLine L = true)
    (hpre : ∀ l ∈ pre, isLocLine l = false) :
    (buildRecord now pt href raw).title = post.headD "" ∧
    (∀ (sp : List String) (S : String) (st : List String),
        post = sp ++ S :: st →
        (∀ l ∈ sp, (parse_stats_line (some l)).1 = none) →
        ((parse_stats_line (some S)).1).isSome →
        (buildRecord now pt href raw).rooms = (parse_stats_line (some S)).1 ∧
        ∀ v, (parse_stats_line (some S)).2 = some v →
          (buildRecord now pt href raw).surface = some v) ∧
    (∀ (dp : List String) (D : String) (dt : List String),
        mergeDH raw = dp ++ D :: dt →
        (∀ l ∈ dp, containsDH l = false) →
        containsDH D = true →
        (buildRecord now pt href raw).price = parse_price_line (some D)) := by
  have hfind : (mergeDH raw).find? isLocLine = some L := by
    rw [hm]; exact find?_append_first post hpre hL
  have hLpre : L ∉ pre := by
    intro hmem
    have := hpre L hmem
    rw [hL] at this
    exact Bool.noConfusion this
  have hidx : (mergeDH raw).indexOf L = pre.length := by
    rw [hm]; exact indexOf_append_cons post hLpre
  have hdrop : (mergeDH raw).drop ((mergeDH raw).indexOf L + 1) = post := by
    rw [hidx, hm]; exact drop_append_cons pre L post
  refine ⟨?_, ?_, ?_⟩
  · simp only [buildRecord, hfind]
    rw [hidx, hm]
    exact getD_succ_append_cons L post pre
  · intro sp S st hpost hsp hS
    have hstat : ((mergeDH raw).drop ((mergeDH raw).indexOf L + 1)).find?
        (fun l => ((parse_stats_line (some l)).1).isSome) = some S := by
      rw [hdrop, hpost]
      refine find?_append_first st ?_ hS
      intro l hl
      rw [hsp l hl]
      rfl
    constructor
    · simp only [buildRecord, hfind, hstat]
    · intro v hv
      simp only [buildRecord, hfind, hstat, hv]
  · intro dp D dt hdm hdp hD
    have hpl : (mergeDH raw).find? containsDH = some D := by
      rw [hdm]; exact find?_append_first dt hdp hD
    simp only [buildRecord, hpl, Option.getD_some]

/-- Witness for C8 (amended) on a well-formed block. -/
theorem segmenter_scan_rule_witness :
    (buildRecord 0 "appartement" "L"
        ["Appartements dans Casablanca, Gauthier", "Titre", "3 2 187 m²4", "700 000 DH"]).title
      = "Titre" ∧
    (buildRecord 0 "appartement" "L"
        ["Appartements dans Casablanca, Gauthier", "Titre", "3 2 187 m²4", "700 000 DH"]).rooms
      = some 3 ∧
    (buildRecord 0 "appartement" "L"
        ["Appartements dans Casablanca, Gauthier", "Titre", "3 2 187 m²4", "700 000 DH"]).price
      = some 700000 := by
  have h := segmenter_scan_rule 0 "appartement" "L"
      ["Appartements dans Casablanca, Gauthier", "Titre", "3 2 187 m²4", "700 000 DH"]
      [] ["Titre", "3 2 187 m²4", "700 000 DH"] "Appartements dans Casablanca, Gauthier"
      (by decide) (by decide) (by intro l hl; simp at hl)
  refine ⟨?_, ?_, ?_⟩
  · exact h.1.trans rfl
  · have h2 := (h.2.1 ["Titre"] "3 2 187 m²4" ["700 000 DH"] rfl
        (by intro l hl; simp at hl; subst hl; decide) (by decide)).1
    exact h2.trans (by decide)
  · have h3 := h.2.2 ["Appartements dans Casablanca, Gauthier", "Titre", "3 2 187 m²4"]
        "700 000 DH" [] (by decide) (by intro l hl; fin_cases hl <;> decide) (by decide)
    exact h3.trans (by decide)

end CasaMap

namespace CasaMap

/-! ## Claim C4 -/

theorem pyRound_floor_or (q : ℚ) : pyRound q = ⌊q⌋ ∨ pyRound q = ⌊q⌋ + 1 := by
  simp only [pyRound]
  split_ifs <;> simp

theorem le_pyRound {A : ℤ} {q : ℚ} (h : (A : ℚ) ≤ q) : A ≤ pyRound q := by
  have h1 : A ≤ ⌊q⌋ := Int.le_floor.mpr h
  rcases pyRound_floor_or q with h2 | h2 <;> omega

theorem pyRound_le {B : ℤ} {q : ℚ} (h : q ≤ (B : ℚ)) : pyRound q ≤ B := by
  have hfl : ⌊q⌋ ≤ B := by
    have h2 := Int.floor_le_floor h
    simpa using h2
  simp only [pyRound]
  split_ifs with h1 h2 h3
  · exact hfl
  · have hq : (⌊q⌋ : ℚ) < q := by linarith
    have h4 : ⌊q⌋ < B := by exact_mod_cast lt_of_lt_of_le hq h
    omega
  · exact hfl
  · push_neg at h1
    have hq : (⌊q⌋ : ℚ) < q := by linarith
    have h4 : ⌊q⌋ < B := by exact_mod_cast lt_of_lt_of_le hq h
    omega

set_option maxHeartbeats 2000000 in
/-- Every box of both geography tables is healthy. -/
theorem allBoxesOK : ∀ p ∈ QUARTIER_BOUNDS ++ CITY_BOUNDS, boxOK p.2 := by
  intro p hp
  rw [List.mem_append] at hp
  rcases hp with hp | hp
  · fin_cases hp <;> refine ⟨?_, ?_, ?_, ?_, ?_, ?_⟩ <;> norm_num [Rat.den_eq_one_iff]
  · fin_cases hp <;> refine ⟨?_, ?_, ?_, ?_, ?_, ?_⟩ <;> norm_num [Rat.den_eq_one_iff]

theorem lookupBox_mem {qt ct : Option String} {b : Box}
    (h : lookupBox qt ct = some b) :
    ∃ p ∈ QUARTIER_BOUNDS ++ CITY_BOUNDS, p.2 = b := by
  unfold lookupBox at h
  rcases hq : dictGet QUARTIER_BOUNDS qt with _ | b1
  · rw [hq] at h
    unfold dictGet at h
    cases ct with
    | none => simp at h
    | some s =>
      rcases Option.map_eq_some'.mp h with ⟨kv, hkv, hb⟩
      exact ⟨kv, List.mem_append_right _ (List.mem_of_find?_eq_some hkv), hb⟩
  · rw [hq] at h
    cases h
    unfold dictGet at hq
    cases qt with
    | none => simp at hq
    | some s =>
      rcases Option.map_eq_some'.mp hq with ⟨kv, hkv, hb⟩
      exact ⟨kv, List.mem_append_left _ (List.mem_of_find?_eq_some hkv), hb⟩

theorem round6_bounds {a b x : ℚ} (ha : (a * 1000).den = 1) (hb : (b * 1000).den = 1)
    (hax : a ≤ x) (hxb : x ≤ b) : a ≤ round6 x ∧ round6 x ≤ b := by
  have hA : ((a * 1000).num : ℚ) = a * 1000 := Rat.coe_int_num_of_den_eq_one ha
  have hB : ((b * 1000).num : ℚ) = b * 1000 := Rat.coe_int_num_of_den_eq_one hb
  have h1000 : (0 : ℚ) < 1000000 := by norm_num
  have haA : (((a * 1000).num * 1000 : ℤ) : ℚ) = a * 1000000 := by
    push_cast
    rw [hA]
    ring
  have hbB : (((b * 1000).num * 1000 : ℤ) : ℚ) = b * 1000000 := by
    push_cast
    rw [hB]
    ring
  constructor
  · have hle : ((((a * 1000).num * 1000 : ℤ)) : ℚ) ≤ x * 1000000 := by
      rw [haA]
      exact mul_le_mul_of_nonneg_right hax (by norm_num)
    have h2 := le_pyRound hle
    have h3 : (((a * 1000).num * 1000 : ℤ) : ℚ) ≤ (pyRound (x * 1000000) : ℚ) := by
      exact_mod_cast h2
    rw [haA] at h3
    unfold round6
    rw [le_div_iff h1000]
    exact h3
  · have hle : x * 1000000 ≤ (((b * 1000).num * 1000 : ℤ) : ℚ) := by
      rw [hbB]
      exact mul_le_mul_of_nonneg_right hxb (by norm_num)
    have h2 := pyRound_le hle
    have h3 : (pyRound (x * 1000000) : ℚ) ≤ (((b * 1000).num * 1000 : ℤ) : ℚ) := by
      exact_mod_cast h2
    rw [hbB] at h3
    unfold round6
    rw [div_le_iff h1000]
    exact h3

/-- Claim C4: whenever the geography lookup yields a box, the geocoder
returns the two uniform samples rounded to six decimal places, and each
rounded coordinate stays inside the box's closed interval (the table's
three-decimal grid makes rounding safe); when no box matches, it
returns no coordinates.  The uniform draws `t1`, `t2` are the
`random()` values, which lie in `[0, 1]`. -/
theorem geocode_containment :
    (∀ (qt ct : Option String) (a b lo hi t1 t2 : ℚ),
        lookupBox qt ct = some (a, b, lo, hi) →
        0 ≤ t1 → t1 ≤ 1 → 0 ≤ t2 → t2 ≤ 1 →
        coords_for qt ct t1 t2 =
          (some (round6 (pyUniform a b t1)), some (round6 (pyUniform lo hi t2))) ∧
        a ≤ round6 (pyUniform a b t1) ∧ round6 (pyUniform a b t1) ≤ b ∧
        lo ≤ round6 (pyUniform lo hi t2) ∧ round6 (pyUniform lo hi t2) ≤ hi) ∧
    (∀ (qt ct : Option String) (t1 t2 : ℚ),
        lookupBox qt ct = none → coords_for qt ct t1 t2 = (none, none)) := by
  constructor
  · intro qt ct a b lo hi t1 t2 hbox ht1 ht2 ht3 ht4
    obtain ⟨p, hp, hpeq⟩ := lookupBox_mem hbox
    have hOK := allBoxesOK p hp
    rw [hpeq] at hOK
    obtain ⟨hga, hgb, hglo, hghi, hab, hlohi⟩ := hOK
    have hu1a : a ≤ pyUniform a b t1 := by
      unfold pyUniform
      nlinarith
    have hu1b : pyUniform a b t1 ≤ b := by
      unfold pyUniform
      nlinarith
    have hu2a : lo ≤ pyUniform lo hi t2 := by
      unfold pyUniform
      nlinarith
    have hu2b : pyUniform lo hi t2 ≤ hi := by
      unfold pyUniform
      nlinarith
    have hb1 := round6_bounds hga hgb hu1a hu1b
    have hb2 := round6_bounds hglo hghi hu2a hu2b
    refine ⟨?_, hb1.1, hb1.2, hb2.1, hb2.2⟩
    simp [coords_for, hbox]
  · intro qt ct t1 t2 h
    simp [coords_for, h]

/-- Witness for C4 at the Gauthier box with both draws 0. -/
theorem geocode_containment_witness :
    coords_for (some "Gauthier") none 0 0 =
        (some (round6 (pyUniform 33.582 33.595 0)),
         some (round6 (pyUniform (-7.636) (-7.611) 0))) ∧
    (33.582 : ℚ) ≤ round6 (pyUniform 33.582 33.595 0) ∧
    round6 (pyUniform 33.582 33.595 0) ≤ 33.595 ∧
    (-7.636 : ℚ) ≤ round6 (pyUniform (-7.636) (-7.611) 0) ∧
    round6 (pyUniform (-7.636) (-7.611) 0) ≤ -7.611 :=
  geocode_containment.1 (some "Gauthier") none 33.582 33.595 (-7.636) (-7.611) 0 0
    rfl (by norm_num) (by norm_num) (by norm_num) (by norm_num)

end CasaMap

namespace CasaMap

/-! ## Claim C7 -/

theorem strData_mk (l : List Char) : (⟨l⟩ : String).data = l := rfl

theorem takeWhile_all {α : Type} {p : α → Bool} {xs : List α}
    (h : ∀ x ∈ xs, p x = true) : xs.takeWhile p = xs := by
  induction xs with
  | nil => rfl
  | cons a t ih =>
    have ha := h a (List.mem_cons_self _ _)
    simp [List.takeWhile_cons, ha, ih (fun x hx => h x (List.mem_cons_of_mem _ hx))]

theorem dropWhile_all {α : Type} {p : α → Bool} {xs : List α}
    (h : ∀ x ∈ xs, p x = true) : xs.dropWhile p = [] := by
  induction xs with
  | nil => rfl
  | cons a t ih =>
    have ha := h a (List.mem_cons_self _ _)
    simp [List.dropWhile_cons, ha, ih (fun x hx => h x (List.mem_cons_of_mem _ hx))]

theorem takeWhile_all_append {α : Type} {p : α → Bool} {xs : List α} (ys : List α)
    (h : ∀ x ∈ xs, p x = true) :
    (xs ++ ys).takeWhile p = xs ++ ys.takeWhile p := by
  induction xs with
  | nil => simp
  | cons a t ih =>
    have ha := h a (List.mem_cons_self _ _)
    simp [List.takeWhile_cons, ha, ih (fun x hx => h x (List.mem_cons_of_mem _ hx))]

theorem dropWhile_all_append {α : Type} {p : α → Bool} {xs : List α} (ys : List α)
    (h : ∀ x ∈ xs, p x = true) :
    (xs ++ ys).dropWhile p = ys.dropWhile p := by
  induction xs with
  | nil => simp
  | cons a t ih =>
    have ha := h a (List.mem_cons_self _ _)
    simp [List.dropWhile_cons, ha, ih (fun x hx => h x (List.mem_cons_of_mem _ hx))]

theorem dropWhile_idem {α : Type} {p : α → Bool} {l : List α} :
    (l.dropWhile p).dropWhile p = l.dropWhile p := by
  induction l with
  | nil => rfl
  | cons a t ih =>
    cases hpa : p a with
    | true => simp [List.dropWhile_cons, hpa, ih]
    | false => simp [List.dropWhile_cons, hpa]

theorem pyStrip_dropWhile (q : List Char) :
    pyStripList (q.dropWhile pySpace) = pyStripList q := by
  unfold pyStripList
  rw [dropWhile_idem]

theorem pyStrip_of_all_space {q : List Char} (h : ∀ x ∈ q, pySpace x = true) :
    pyStripList q = [] := by
  unfold pyStripList
  rw [dropWhile_all h]
  rfl

set_option maxHeartbeats 1000000 in
/-- The `_LOC_RE` engine after the fixed prefix `"Appartements dans "`:
everything up to (and including) the single space after `dans` is
consumed deterministically. -/
theorem locGroups_after_label (t : List Char) :
    locGroups ("Appartements dans ".data ++ t) = locTail ' ' t := rfl

set_option maxHeartbeats 1000000 in
/-- The `locTail` when the character after the whitespace run is not a comma
and not whitespace: group 1 is everything up to the first comma. -/
theorem locTail_nonspace {ch : Char} (rest : List Char) (hch : pySpace ch = false)
    (hc : ¬ch = ',') :
    locTail ' ' (ch :: rest) =
      locFinish ((ch :: rest).takeWhile (fun x => x ≠ ','))
        ((ch :: rest).dropWhile (fun x => x ≠ ',')) := by
  have hdw : (ch :: rest).dropWhile pySpace = ch :: rest := by
    rw [List.dropWhile_cons, if_neg (by simp [hch])]
  rw [locTail.eq_def, hdw]
  simp only []
  rw [if_neg hc]

/-- All of `ch :: cs` passes the `[^,]` class. -/
theorem noComma_all {ch : Char} {cs : List Char} (hc : ',' ∉ ch :: cs) :
    ∀ x ∈ ch :: cs, (fun x => decide (x ≠ ',')) x = true := by
  intro x hx
  simp only [decide_eq_true_eq]
  intro he
  exact hc (he ▸ hx)

/-- The `locGroups` on `"Appartements dans <c>,<q>"` with `c = ch :: cs`
comma-free starting with a non-space, `q` non-empty: group 1 is `c` and
group 2 strips to what `q` strips to. -/
theorem locGroups_comma {ch : Char} {cs q : List Char}
    (hch : pySpace ch = false) (hc : ',' ∉ ch :: cs) (hq : q ≠ []) :
    ∃ g2, locGroups ("Appartements dans ".data ++ ch :: (cs ++ ',' :: q)) =
        some (ch :: cs, some g2) ∧ pyStripList g2 = pyStripList q := by
  have hcc : ¬ch = ',' := fun he => hc (he ▸ List.mem_cons_self _ _)
  rw [locGroups_after_label, locTail_nonspace (cs ++ ',' :: q) hch hcc]
  rw [show ch :: (cs ++ ',' :: q) = (ch :: cs) ++ ',' :: q from rfl]
  rw [takeWhile_all_append (',' :: q) (noComma_all hc),
    dropWhile_all_append (',' :: q) (noComma_all hc)]
  rw [show List.takeWhile (fun x => decide (x ≠ ',')) (',' :: q) = [] from by
      simp [List.takeWhile_cons],
    show List.dropWhile (fun x => decide (x ≠ ',')) (',' :: q) = ',' :: q from by
      simp [List.dropWhile_cons]]
  rw [List.append_nil]
  simp only [locFinish]
  rcases hdq : q.dropWhile pySpace with _ | ⟨c1, r1⟩
  · have hall : ∀ x ∈ q, pySpace x = true := by
      intro x hx
      exact List.dropWhile_eq_nil_iff.mp hdq x hx
    have hcl := List.getLast?_eq_getLast_of_ne_nil hq
    rw [hcl]
    refine ⟨[q.getLast hq], rfl, ?_⟩
    rw [pyStrip_of_all_space hall, pyStrip_of_all_space ?_]
    intro x hx
    rcases List.mem_singleton.mp hx with rfl
    exact hall _ (List.getLast_mem hq)
  · refine ⟨c1 :: r1, rfl, ?_⟩
    rw [← hdq, pyStrip_dropWhile]

/-- The `locGroups` on `"Appartements dans <c>"` with no comma: group 1 is
all of `c`, no group 2. -/
theorem locGroups_nocomma {ch : Char} {cs : List Char}
    (hch : pySpace ch = false) (hc : ',' ∉ ch :: cs) :
    locGroups ("Appartements dans ".data ++ ch :: cs) = some (ch :: cs, none) := by
  have hcc : ¬ch = ',' := fun he => hc (he ▸ List.mem_cons_self _ _)
  rw [locGroups_after_label, locTail_nonspace cs hch hcc]
  rw [takeWhile_all (noComma_all hc), dropWhile_all (noComma_all hc)]
  rfl

/-- The `locGroups` on `"Appartements dans <c>,"` (trailing comma): the
regex fails. -/
theorem locGroups_trailing {ch : Char} {cs : List Char}
    (hch : pySpace ch = false) (hc : ',' ∉ ch :: cs) :
    locGroups ("Appartements dans ".data ++ ch :: (cs ++ [','])) = none := by
  have hcc : ¬ch = ',' := fun he => hc (he ▸ List.mem_cons_self _ _)
  rw [locGroups_after_label, locTail_nonspace (cs ++ [',']) hch hcc]
  rw [show ch :: (cs ++ [',']) = (ch :: cs) ++ [','] from rfl]
  rw [takeWhile_all_append [','] (noComma_all hc),
    dropWhile_all_append [','] (noComma_all hc)]
  rw [show List.takeWhile (fun x => decide (x ≠ ',')) ([','] : List Char) = [] from by
      simp [List.takeWhile_cons],
    show List.dropWhile (fun x => decide (x ≠ ',')) ([','] : List Char) = [','] from by
      simp [List.dropWhile_cons]]
  rw [List.append_nil]
  rfl

/-- Claim C7 counterexample: on the location line
`"Appartements dans Casablanca,"` — of the claimed form with a first
comma and no text after it — the claim's rule gives
city = "Casablanca" and no neighbourhood, but the full regex rejects the
line (the optional `(?:,\s*(.+))?` group can neither match nor be
skipped), so both city and neighbourhood are `None`. -/
theorem location_trailing_comma_cex :
    city_from_location (some "Appartements dans Casablanca,") = none ∧
    quartier_from_location (some "Appartements dans Casablanca,") = none :=
  ⟨by decide, by decide⟩

/-- Claim C7 (amended): for a location line
`"Appartements dans <city-phrase>[,<neighbourhood-phrase>]"` (city
phrase comma-free, starting with a non-space character): with a comma
and a non-empty remainder, the text before the first comma is the city
phrase — resolved against the canonical table by case-insensitive
substring containment with title-case fallback (`cityResolve`) — and
the text after it, stripped and title-cased, is the neighbourhood; with
no comma the whole rest is the city phrase and there is no
neighbourhood; but with a trailing comma and NOTHING after it the
parser rejects the line entirely and returns no city at all. -/
theorem location_split_rule :
    city_from_location (some "Appartements dans Casablanca, Gauthier") = some "Casablanca" ∧
    quartier_from_location (some "Appartements dans Casablanca, Gauthier") = some "Gauthier" ∧
    (∀ (ch : Char) (cs q : List Char),
        pySpace ch = false → ',' ∉ ch :: cs → q ≠ [] →
        city_from_location (some ⟨"Appartements dans ".data ++ ch :: (cs ++ ',' :: q)⟩)
          = some (cityResolve (ch :: cs)) ∧
        quartier_from_location (some ⟨"Appartements dans ".data ++ ch :: (cs ++ ',' :: q)⟩)
          = some ⟨pyTitle (pyStripList q)⟩) ∧
    (∀ (ch : Char) (cs : List Char),
        pySpace ch = false → ',' ∉ ch :: cs →
        city_from_location (some ⟨"Appartements dans ".data ++ ch :: cs⟩)
          = some (cityResolve (ch :: cs)) ∧
        quartier_from_location (some ⟨"Appartements dans ".data ++ ch :: cs⟩) = none) ∧
    (∀ (ch : Char) (cs : List Char),
        pySpace ch = false → ',' ∉ ch :: cs →
        city_from_location (some ⟨"Appartements dans ".data ++ ch :: (cs ++ [','])⟩) = none ∧
        quartier_from_location (some ⟨"Appartements dans ".data ++ ch :: (cs ++ [','])⟩)
          = none) := by
  refine ⟨by decide, by decide, ?_, ?_, ?_⟩
  · intro ch cs q hch hc hq
    obtain ⟨g2, hg, hstrip⟩ := locGroups_comma hch hc hq
    constructor
    · simp only [city_from_location, Option.getD_some, strData_mk, hg]
    · simp only [quartier_from_location, Option.getD_some, strData_mk, hg, hstrip]
  · intro ch cs hch hc
    have hg := locGroups_nocomma hch hc
    constructor
    · simp only [city_from_location, Option.getD_some, strData_mk, hg]
    · simp only [quartier_from_location, Option.getD_some, strData_mk, hg]
  · intro ch cs hch hc
    have hg := locGroups_trailing hch hc
    constructor
    · simp only [city_from_location, Option.getD_some, strData_mk, hg]
    · simp only [quartier_from_location, Option.getD_some, strData_mk, hg]

/-- Witness for C7 (amended) on a Tanger line. -/
theorem location_split_rule_witness :
    city_from_location (some ⟨"Appartements dans ".data ++ 'T' :: ("anger".data ++ ',' :: " Malabata".data)⟩)
      = some (cityResolve ('T' :: "anger".data)) ∧
    quartier_from_location (some ⟨"Appartements dans ".data ++ 'T' :: ("anger".data ++ ',' :: " Malabata".data)⟩)
      = some ⟨pyTitle (pyStripList " Malabata".data)⟩ :=
  location_split_rule.2.2.1 'T' "anger".data " Malabata".data (by decide) (by decide)
    (by decide)

end CasaMap
